import Mathlib

/-!
Verification of the acoustic-diagnostic tool's signal-processing pipeline and
session engine.  The definitions below are a shallow embedding of the source:

* `getMetrics`, `computeRms`, `computeDb`, `findPeak`, `statusOf` embed
  `AudioProcessor.getMetrics` (services/audioService.ts); JS numbers are
  modelled as real numbers, `Math.round` as `jsRound` (floor of x + 1/2,
  JS rounds half toward positive infinity), and the JS falsy-guard
  `rms || 1e-6` as `jsOr`.
* `AppState`, `startMeasurement`, `stopMeasurement`, `resetToMenu`,
  `countdownTick`, `saveToHistory`, `handleCalibrationChange` embed the
  session/state logic of App.tsx; the React `useState` cells become fields of
  `AppState`, and the externally supplied UUID and timestamp of a history
  entry are passed in as arguments.
-/

namespace Openoise

inductive DiagnosticStatus where
  | NORMAL
  | ABNORMAL
  | IDLE
deriving DecidableEq, Repr

structure MachineStandard where
  id : String
  name : String
  category : String
  maxDb : ℝ
  peakFreqRange : ℝ × ℝ

structure AudioMetrics where
  db : ℝ
  peakFrequency : ℤ
  isStable : Bool
  status : DiagnosticStatus

/-- Static catalog from constants.ts. -/
def MACHINE_STANDARDS : List MachineStandard :=
  [ ⟨"m1", "Washing Machine - Spin Cycle", "Home Appliance", 72, (50, 200)⟩,
    ⟨"m2", "Industrial Conveyor Belt", "Manufacturing", 85, (100, 500)⟩,
    ⟨"m3", "Pneumatic Drill (Stationary)", "Construction", 105, (800, 2000)⟩,
    ⟨"m4", "Centrifugal Pump (Medium)", "Utilities", 78, (200, 600)⟩,
    ⟨"m5", "HVAC Air Handler", "Facilities", 65, (60, 150)⟩ ]

def washingMachine : MachineStandard :=
  ⟨"m1", "Washing Machine - Spin Cycle", "Home Appliance", 72, (50, 200)⟩

/-- Value of `analyser.fftSize` fixed at initialization. -/
def fftSize : ℕ := 2048

/-- JS `Math.round`: rounds half toward positive infinity. -/
noncomputable def jsRound (x : ℝ) : ℤ := ⌊x + 1 / 2⌋

/-- JS `x || d` on a nonnegative number: `d` exactly when `x` is zero (falsy). -/
noncomputable def jsOr (x d : ℝ) : ℝ := if x = 0 then d else x

/-- RMS of a time-domain byte block: each byte t becomes ((t - 128)/128)^2,
the squares are averaged and the square root taken, as in the source loop. -/
noncomputable def computeRms (timeData : List ℕ) : ℝ :=
  Real.sqrt (((timeData.map (fun t : ℕ => (((t : ℝ) - 128) / 128) ^ 2)).sum) /
    (timeData.length : ℝ))

/-- Decibel conversion: `20 * log10(rms || 1e-6) + 100 + calibrationOffset`. -/
noncomputable def computeDb (timeData : List ℕ) (cal : ℝ) : ℝ :=
  20 * Real.logb 10 (jsOr (computeRms timeData) 1e-6) + 100 + cal

/-- The `db` value as reported: rounded to one decimal place. -/
noncomputable def reportedDb (timeData : List ℕ) (cal : ℝ) : ℝ :=
  (jsRound (computeDb timeData cal * 10) : ℝ) / 10

/-- The peak-search loop of `getMetrics`: running maximum `maxVal` (initially
-1) and its index `maxIndex` (initially -1), updated on strict increase only,
so the first occurrence of the maximum wins. -/
def peakLoop : List ℕ → ℤ → ℤ → ℤ → ℤ × ℤ
  | [], _, maxVal, maxIndex => (maxVal, maxIndex)
  | v :: rest, i, maxVal, maxIndex =>
      if (v : ℤ) > maxVal then peakLoop rest (i + 1) (v : ℤ) i
      else peakLoop rest (i + 1) maxVal maxIndex

def findPeak (data : List ℕ) : ℤ × ℤ := peakLoop data 0 (-1) (-1)

/-- Bin-to-frequency conversion: `maxIndex * (sampleRate / fftSize)`. -/
noncomputable def binFreq (sampleRate : ℝ) (i : ℤ) : ℝ :=
  (i : ℝ) * (sampleRate / (fftSize : ℝ))

/-- The diagnostic classifier of `getMetrics`:
`dbExceeded || (maxVal > 200 && freqAbnormal)` selects ABNORMAL, else NORMAL. -/
noncomputable def statusOf (db peak : ℝ) (maxVal : ℤ) (std : MachineStandard) :
    DiagnosticStatus :=
  if db > std.maxDb ∨
      (maxVal > 200 ∧ (peak > std.peakFreqRange.2 ∨ peak < std.peakFreqRange.1)) then
    DiagnosticStatus.ABNORMAL
  else DiagnosticStatus.NORMAL

/-- The zero snapshot returned by `getMetrics` before initialization. -/
def zeroMetrics : AudioMetrics := ⟨0, 0, false, DiagnosticStatus.IDLE⟩

/-- State of an initialized analyser: the current time-domain block, the
current magnitude array, the platform sample rate and the calibration offset. -/
structure AnalyserState where
  timeData : List ℕ
  freqData : List ℕ
  sampleRate : ℝ
  calibrationOffset : ℝ

/-- Embedding of `AudioProcessor.getMetrics`; `none` is the uninitialized
processor (`!this.analyser || !this.audioCtx`). -/
noncomputable def getMetrics : Option AnalyserState → MachineStandard → AudioMetrics
  | none, _ => zeroMetrics
  | some st, std =>
      let rms := computeRms st.timeData
      let db := computeDb st.timeData st.calibrationOffset
      let p := findPeak st.freqData
      let peakFrequency := binFreq st.sampleRate p.2
      { db := (jsRound (db * 10) : ℝ) / 10
        peakFrequency := jsRound peakFrequency
        isStable := if rms > 0.001 then true else false
        status := statusOf db peakFrequency p.1 std }

structure HistoryEntry where
  id : String
  machineId : String
  machineName : String
  timestamp : ℕ
  status : DiagnosticStatus
  db : ℝ
  peakFrequency : ℤ

/-- The entry built by `saveToHistory` in App.tsx; the UUID and `Date.now()`
timestamp are environment-provided inputs. -/
def mkEntry (id : String) (ts : ℕ) (m : MachineStandard) (fm : AudioMetrics) :
    HistoryEntry :=
  ⟨id, m.id, m.name, ts, fm.status, fm.db, fm.peakFrequency⟩

/-- History update: `[newEntry, ...history].slice(0, 50)`. -/
def saveToHistory (e : HistoryEntry) (history : List HistoryEntry) :
    List HistoryEntry :=
  (e :: history).take 50

/-- The App-level state cells: selected machine, measuring flag, finished
flag, latest metrics, calibration offset, history, countdown, and the audio
processor handle (carrying its calibration) or `none` when released. -/
structure AppState where
  selectedMachine : Option MachineStandard
  isMeasuring : Bool
  hasFinishedTest : Bool
  metrics : AudioMetrics
  calibrationOffset : ℝ
  history : List HistoryEntry
  countdown : Option ℕ
  audioProcessor : Option ℝ

/-- Embedding of `stopMeasurement`: release the processor; save to history
exactly when `isMeasuring && selectedMachine`; then clear the measuring flag
and countdown and set the finished flag.  The Bool reports whether a history
record was emitted. -/
def stopMeasurement (id : String) (ts : ℕ) (s : AppState) : AppState × Bool :=
  match s.isMeasuring, s.selectedMachine with
  | true, some m =>
      ({ s with audioProcessor := none
                history := saveToHistory (mkEntry id ts m s.metrics) s.history
                isMeasuring := false
                countdown := none
                hasFinishedTest := true }, true)
  | _, _ =>
      ({ s with audioProcessor := none
                isMeasuring := false
                countdown := none
                hasFinishedTest := true }, false)

/-- Embedding of `startMeasurement`: no-op without a selected machine; on a
successful `initialize` (`ok = true`) acquire a processor with the current
calibration, set measuring, clear finished, arm the 10-second countdown; on a
failed acquisition (`ok = false`, the catch branch) the state is unchanged. -/
def startMeasurement (ok : Bool) (s : AppState) : AppState :=
  match s.selectedMachine with
  | none => s
  | some _ =>
      if ok then
        { s with audioProcessor := some s.calibrationOffset
                 isMeasuring := true
                 hasFinishedTest := false
                 countdown := some 10 }
      else s

/-- Embedding of `resetToMenu`: stop, then clear the machine, finished flag
and displayed metrics. -/
def resetToMenu (id : String) (ts : ℕ) (s : AppState) : AppState × Bool :=
  let r := stopMeasurement id ts s
  ({ r.1 with selectedMachine := none
              hasFinishedTest := false
              metrics := zeroMetrics }, r.2)

/-- Embedding of the countdown effect: a positive countdown is decremented, a
zero countdown triggers `stopMeasurement`, no countdown does nothing. -/
def countdownTick (id : String) (ts : ℕ) (s : AppState) : AppState × Bool :=
  match s.countdown with
  | none => (s, false)
  | some 0 => stopMeasurement id ts s
  | some (n + 1) => ({ s with countdown := some n }, false)

/-- Embedding of `handleCalibrationChange` after `parseFloat`: the parsed
number is stored unconditionally and forwarded to a live processor. -/
def handleCalibrationChange (num : ℝ) (s : AppState) : AppState :=
  { s with calibrationOffset := num
           audioProcessor := s.audioProcessor.map (fun _ => num) }

/-- A concrete fully idle application state (fresh launch). -/
def idleState : AppState :=
  ⟨none, false, false, zeroMetrics, 0, [], none, none⟩

/-! ## Theorems -/

/-- C1: on an initialized pipeline the returned status is ABNORMAL iff
`db > maxDb`, or the maximum magnitude exceeds 200 and the peak frequency lies
outside `[peakFreqRange.low, peakFreqRange.high]`; otherwise NORMAL; and the
four truth-table instances for `maxDb = 72`, `peakFreqRange = [50, 200]` hold:
(75, 100, 0) is ABNORMAL, (60, 500, 50) is NORMAL, (60, 500, 220) is ABNORMAL,
(60, 100, 220) is NORMAL. -/
theorem C1_classifier :
    (∀ (st : AnalyserState) (std : MachineStandard),
      (getMetrics (some st) std).status =
        statusOf (computeDb st.timeData st.calibrationOffset)
          (binFreq st.sampleRate (findPeak st.freqData).2)
          (findPeak st.freqData).1 std)
    ∧ (∀ (db peak : ℝ) (mv : ℤ) (std : MachineStandard),
        (statusOf db peak mv std = DiagnosticStatus.ABNORMAL ↔
          (db > std.maxDb ∨ (mv > 200 ∧
            (peak < std.peakFreqRange.1 ∨ peak > std.peakFreqRange.2))))
        ∧ (statusOf db peak mv std = DiagnosticStatus.NORMAL ↔
          ¬(db > std.maxDb ∨ (mv > 200 ∧
            (peak < std.peakFreqRange.1 ∨ peak > std.peakFreqRange.2)))))
    ∧ statusOf 75 100 0 washingMachine = DiagnosticStatus.ABNORMAL
    ∧ statusOf 60 500 50 washingMachine = DiagnosticStatus.NORMAL
    ∧ statusOf 60 500 220 washingMachine = DiagnosticStatus.ABNORMAL
    ∧ statusOf 60 100 220 washingMachine = DiagnosticStatus.NORMAL := by
  refine ⟨fun st std => rfl, fun db peak mv std => ?_, ?_, ?_, ?_, ?_⟩
  · have hiff : (db > std.maxDb ∨ (mv > 200 ∧
        (peak > std.peakFreqRange.2 ∨ peak < std.peakFreqRange.1))) ↔
        (db > std.maxDb ∨ (mv > 200 ∧
        (peak < std.peakFreqRange.1 ∨ peak > std.peakFreqRange.2))) := by
      tauto
    unfold statusOf
    by_cases h : db > std.maxDb ∨ (mv > 200 ∧
        (peak > std.peakFreqRange.2 ∨ peak < std.peakFreqRange.1))
    · rw [if_pos h]
      exact ⟨⟨fun _ => hiff.mp h, fun _ => rfl⟩,
        ⟨fun hEq => absurd hEq (by decide), fun hn => absurd (hiff.mp h) hn⟩⟩
    · rw [if_neg h]
      exact ⟨⟨fun hEq => absurd hEq (by decide), fun hc => absurd (hiff.mpr hc) h⟩,
        ⟨fun _ => fun hc => h (hiff.mpr hc), fun _ => rfl⟩⟩
  · unfold statusOf washingMachine
    rw [if_pos]
    norm_num
  · unfold statusOf washingMachine
    rw [if_neg]
    norm_num
  · unfold statusOf washingMachine
    rw [if_pos]
    norm_num
  · unfold statusOf washingMachine
    rw [if_neg]
    norm_num

/-- C9: a metrics poll on an uninitialized pipeline returns the zeroed
snapshot (db = 0, peakFrequency = 0, isStable = false) with status IDLE, for
every machine profile. -/
theorem C9_uninitialized_zero_snapshot (std : MachineStandard) :
    getMetrics none std = zeroMetrics
    ∧ (getMetrics none std).db = 0
    ∧ (getMetrics none std).peakFrequency = 0
    ∧ (getMetrics none std).isStable = false
    ∧ (getMetrics none std).status = DiagnosticStatus.IDLE :=
  ⟨rfl, rfl, rfl, rfl, rfl⟩

/-- C10: once the pipeline is initialized, every metrics poll returns status
NORMAL or ABNORMAL, never IDLE, for every input block and machine profile. -/
theorem C10_initialized_never_idle (st : AnalyserState) (std : MachineStandard) :
    (getMetrics (some st) std).status ≠ DiagnosticStatus.IDLE
    ∧ ((getMetrics (some st) std).status = DiagnosticStatus.NORMAL ∨
       (getMetrics (some st) std).status = DiagnosticStatus.ABNORMAL) := by
  have h : (getMetrics (some st) std).status =
      statusOf (computeDb st.timeData st.calibrationOffset)
        (binFreq st.sampleRate (findPeak st.freqData).2)
        (findPeak st.freqData).1 std := rfl
  rw [h]
  unfold statusOf
  by_cases hc : computeDb st.timeData st.calibrationOffset > std.maxDb ∨
      ((findPeak st.freqData).1 > 200 ∧
        (binFreq st.sampleRate (findPeak st.freqData).2 > std.peakFreqRange.2 ∨
         binFreq st.sampleRate (findPeak st.freqData).2 < std.peakFreqRange.1))
  · rw [if_pos hc]
    exact ⟨by simp, Or.inr rfl⟩
  · rw [if_neg hc]
    exact ⟨by simp, Or.inl rfl⟩

/-- On any 2048-sample byte block the RMS is either exactly zero or larger
than the 1e-6 floor: a nonzero byte contributes at least (1/128)^2 to the sum
of squares, so a nonzero RMS is at least 2^(-12.5). -/
lemma rms_zero_or_big (td : List ℕ) (hlen : td.length = 2048) :
    computeRms td = 0 ∨ 1e-6 < computeRms td := by
  have hnn : ∀ x ∈ td.map (fun t : ℕ => (((t : ℝ) - 128) / 128) ^ 2), 0 ≤ x := by
    intro x hx
    obtain ⟨t, ht, rfl⟩ := List.mem_map.mp hx
    positivity
  by_cases h0 : (td.map (fun t : ℕ => (((t : ℝ) - 128) / 128) ^ 2)).sum = 0
  · left
    unfold computeRms
    rw [h0]
    simp
  · right
    have hex : ∃ x ∈ td.map (fun t : ℕ => (((t : ℝ) - 128) / 128) ^ 2), x ≠ 0 := by
      by_contra hall
      push_neg at hall
      exact h0 (List.sum_eq_zero hall)
    obtain ⟨x, hxmem, hxne⟩ := hex
    obtain ⟨t, htmem, rfl⟩ := List.mem_map.mp hxmem
    have ht128 : t ≠ 128 := by
      intro hteq
      subst hteq
      norm_num at hxne
    have hz : (t : ℤ) - 128 ≠ 0 := by omega
    have h2 : (1 : ℤ) ≤ ((t : ℤ) - 128) ^ 2 := by
      nlinarith [Int.one_le_abs hz, sq_abs ((t : ℤ) - 128), abs_nonneg ((t : ℤ) - 128)]
    have habs : (1 : ℝ) ≤ ((t : ℝ) - 128) ^ 2 := by
      have hcast : ((t : ℝ) - 128) ^ 2 = ((((t : ℤ) - 128) ^ 2 : ℤ) : ℝ) := by
        push_cast
        ring
      rw [hcast]
      exact_mod_cast h2
    have hterm : (1 : ℝ) / 16384 ≤ (((t : ℝ) - 128) / 128) ^ 2 := by
      have hring : (((t : ℝ) - 128) / 128) ^ 2 = ((t : ℝ) - 128) ^ 2 / 16384 := by
        ring
      rw [hring]
      linarith
    have hSge : (1 : ℝ) / 16384 ≤
        (td.map (fun t : ℕ => (((t : ℝ) - 128) / 128) ^ 2)).sum :=
      le_trans hterm (List.single_le_sum hnn _ hxmem)
    unfold computeRms
    rw [hlen]
    rw [Real.lt_sqrt (by norm_num)]
    push_cast
    nlinarith

/-- On any 2048-sample byte block, the JS falsy-guard `rms || 1e-6` coincides
with `max(rms, 1e-6)`: the only reachable RMS values below the floor is zero. -/
lemma jsOr_eq_max (td : List ℕ) (hlen : td.length = 2048) :
    jsOr (computeRms td) 1e-6 = max (computeRms td) 1e-6 := by
  rcases rms_zero_or_big td hlen with h | h
  · rw [h]
    unfold jsOr
    rw [if_pos rfl, max_eq_right (by norm_num)]
  · have hpos : (0 : ℝ) < computeRms td := lt_trans (by norm_num) h
    unfold jsOr
    rw [if_neg (ne_of_gt hpos), max_eq_left (le_of_lt h)]

/-- C2: for every 2048-sample time-domain block, the db value equals
`20 * log10(max(rms, 1e-6)) + 100 + calibrationOffset`, every RMS below the
floor (only zero is reachable) being raised to the floor before the
logarithm, and the reported value is this quantity rounded to one decimal. -/
theorem C2_db_formula (f : Fin 2048 → ℕ) (cal : ℝ) :
    computeDb (List.ofFn f) cal =
      20 * Real.logb 10 (max (computeRms (List.ofFn f)) 1e-6) + 100 + cal
    ∧ reportedDb (List.ofFn f) cal =
      (jsRound ((20 * Real.logb 10 (max (computeRms (List.ofFn f)) 1e-6) + 100 + cal)
        * 10) : ℝ) / 10
    ∧ ∀ (st : AnalyserState) (std : MachineStandard),
        (getMetrics (some st) std).db = reportedDb st.timeData st.calibrationOffset := by
  have hlen : (List.ofFn f).length = 2048 := List.length_ofFn f
  have h := jsOr_eq_max (List.ofFn f) hlen
  refine ⟨?_, ?_, fun st std => rfl⟩
  · unfold computeDb
    rw [h]
  · unfold reportedDb computeDb
    rw [h]

/-- The all-128 block (digital silence) has RMS exactly zero. -/
lemma computeRms_silence : computeRms (List.replicate 2048 128) = 0 := by
  unfold computeRms
  rw [List.map_replicate]
  norm_num [List.sum_replicate, Real.sqrt_zero]

/-- The epsilon floor hits the logarithm at exactly -6 decades. -/
lemma logb_ten_eps : Real.logb 10 (1e-6 : ℝ) = -6 := by
  have h : (1e-6 : ℝ) = (10 : ℝ) ^ (-6 : ℤ) := by norm_num
  rw [h]
  unfold Real.logb
  rw [Real.log_zpow]
  have h10 : Real.log 10 ≠ 0 := ne_of_gt (Real.log_pos (by norm_num))
  field_simp

/-- On digital silence the db value is -20 plus the calibration offset. -/
lemma computeDb_silence (c : ℝ) :
    computeDb (List.replicate 2048 128) c = -20 + c := by
  unfold computeDb jsOr
  rw [computeRms_silence, if_pos rfl, logb_ten_eps]
  ring

/-- C6 counterexample: on the silent block, moving the calibration offset from
0 to 0.04 (both inside [-60, 60]) does not move the one-decimal-rounded
reported db by 0.04 - both report exactly -20. -/
theorem C6_rounded_linearity_cex :
    ((-60 : ℝ) ≤ 0 ∧ (0 : ℝ) ≤ 60)
    ∧ ((-60 : ℝ) ≤ 0 + 0.04 ∧ (0 : ℝ) + 0.04 ≤ 60)
    ∧ reportedDb (List.replicate 2048 128) (0 + 0.04) ≠
        reportedDb (List.replicate 2048 128) 0 + 0.04 := by
  have h1 : reportedDb (List.replicate 2048 128) 0 = -20 := by
    unfold reportedDb
    rw [computeDb_silence]
    rw [show ((-20 : ℝ) + 0) * 10 = -200 by norm_num]
    have hr : jsRound (-200) = -200 := by
      unfold jsRound
      rw [Int.floor_eq_iff]
      push_cast
      norm_num
    rw [hr]
    norm_num
  have h2 : reportedDb (List.replicate 2048 128) (0 + 0.04) = -20 := by
    unfold reportedDb
    rw [computeDb_silence]
    rw [show ((-20 : ℝ) + (0 + 0.04)) * 10 = -199.6 by norm_num]
    have hr : jsRound (-199.6) = -200 := by
      unfold jsRound
      rw [Int.floor_eq_iff]
      push_cast
      norm_num
    rw [hr]
    norm_num
  refine ⟨⟨by norm_num, by norm_num⟩, ⟨by norm_num, by norm_num⟩, ?_⟩
  rw [h1, h2]
  norm_num

/-- C6 amended: for every fixed input block the pre-rounding db value is
exactly additive in the calibration offset, and the one-decimal-rounded
reported db shifts by exactly Δ whenever 10Δ is an integer (in particular for
every multiple of the slider step 0.5); for other Δ rounding can absorb the
difference. -/
theorem C6_calibration_additive (timeData : List ℕ) (c d : ℝ) (k : ℤ) :
    computeDb timeData (c + d) = computeDb timeData c + d
    ∧ reportedDb timeData (c + (k : ℝ) / 10) =
        reportedDb timeData c + (k : ℝ) / 10 := by
  constructor
  · unfold computeDb
    ring
  · unfold reportedDb computeDb jsRound
    rw [show (20 * Real.logb 10 (jsOr (computeRms timeData) 1e-6) + 100 +
          (c + (k : ℝ) / 10)) * 10 + 1 / 2 =
        ((20 * Real.logb 10 (jsOr (computeRms timeData) 1e-6) + 100 + c) * 10
          + 1 / 2) + (k : ℝ) by ring]
    rw [Int.floor_add_int]
    push_cast
    ring

/-- Invariant of the peak-search loop: either no element beats the incoming
running maximum and the accumulator is returned unchanged, or the loop returns
the first element strictly above the incoming maximum that is a maximum of the
whole list, together with its absolute index. -/
lemma peakLoop_spec (l : List ℕ) : ∀ (i mv mi : ℤ),
    (peakLoop l i mv mi = (mv, mi) ∧ ∀ v ∈ l, (v : ℤ) ≤ mv)
    ∨ (∃ k : ℕ, ∃ hk : k < l.length,
        peakLoop l i mv mi = ((l.get ⟨k, hk⟩ : ℤ), i + (k : ℤ))
        ∧ mv < (l.get ⟨k, hk⟩ : ℤ)
        ∧ (∀ j (hj : j < l.length), (l.get ⟨j, hj⟩ : ℤ) ≤ (l.get ⟨k, hk⟩ : ℤ))
        ∧ (∀ j (hj : j < k),
            (l.get ⟨j, Nat.lt_trans hj hk⟩ : ℤ) < (l.get ⟨k, hk⟩ : ℤ))) := by
  induction l with
  | nil =>
      intro i mv mi
      left
      exact ⟨rfl, by simp⟩
  | cons v rest ih =>
      intro i mv mi
      by_cases hv : (v : ℤ) > mv
      · have hstep : peakLoop (v :: rest) i mv mi = peakLoop rest (i + 1) (v : ℤ) i := by
          rw [peakLoop, if_pos hv]
        rcases ih (i + 1) (v : ℤ) i with ⟨heq, hle⟩ | ⟨k, hk, heq, hgt, hmax, hfirst⟩
        · right
          refine ⟨0, Nat.succ_pos rest.length, ?_, by simpa using hv, ?_, ?_⟩
          · rw [hstep, heq]
            simp
          · intro j hj
            cases j with
            | zero => simp
            | succ j =>
                have hjr : j < rest.length := Nat.lt_of_succ_lt_succ hj
                show (rest.get ⟨j, hjr⟩ : ℤ) ≤ (v : ℤ)
                exact hle _ (rest.get_mem _ _)
          · intro j hj
            exact absurd hj (Nat.not_lt_zero j)
        · right
          refine ⟨k + 1, Nat.succ_lt_succ hk, ?_, lt_trans hv hgt, ?_, ?_⟩
          · rw [hstep, heq, Prod.mk.injEq]
            refine ⟨rfl, ?_⟩
            push_cast
            ring
          · intro j hj
            cases j with
            | zero => exact le_of_lt hgt
            | succ j =>
                have hjr : j < rest.length := Nat.lt_of_succ_lt_succ hj
                show (rest.get ⟨j, hjr⟩ : ℤ) ≤ _
                exact hmax j hjr
          · intro j hj
            cases j with
            | zero => exact hgt
            | succ j =>
                have hjr : j < k := Nat.lt_of_succ_lt_succ hj
                show (rest.get ⟨j, Nat.lt_trans hjr hk⟩ : ℤ) < _
                exact hfirst j hjr
      · have hstep : peakLoop (v :: rest) i mv mi = peakLoop rest (i + 1) mv mi := by
          rw [peakLoop, if_neg hv]
        have hvle : (v : ℤ) ≤ mv := not_lt.mp hv
        rcases ih (i + 1) mv mi with ⟨heq, hle⟩ | ⟨k, hk, heq, hgt, hmax, hfirst⟩
        · left
          refine ⟨by rw [hstep, heq], ?_⟩
          intro u hu
          rcases List.mem_cons.mp hu with rfl | hu
          · exact hvle
          · exact hle u hu
        · right
          refine ⟨k + 1, Nat.succ_lt_succ hk, ?_, hgt, ?_, ?_⟩
          · rw [hstep, heq, Prod.mk.injEq]
            refine ⟨rfl, ?_⟩
            push_cast
            ring
          · intro j hj
            cases j with
            | zero => exact le_trans hvle (le_of_lt hgt)
            | succ j =>
                have hjr : j < rest.length := Nat.lt_of_succ_lt_succ hj
                show (rest.get ⟨j, hjr⟩ : ℤ) ≤ _
                exact hmax j hjr
          · intro j hj
            cases j with
            | zero => exact lt_of_le_of_lt hvle hgt
            | succ j =>
                have hjr : j < k := Nat.lt_of_succ_lt_succ hj
                show (rest.get ⟨j, Nat.lt_trans hjr hk⟩ : ℤ) < _
                exact hfirst j hjr

/-- C7: the extractor selects the index of the maximum magnitude (first
occurrence on ties), the bin-to-Hertz map is exactly
`bin * sampleRate / fftSize` and strictly increasing in the bin, and the
reported peak frequency is that value rounded to the nearest integer. -/
theorem C7_peak_extraction (v : ℕ) (rest : List ℕ) (sr : ℝ) (hsr : 0 < sr) :
    (∃ k : ℕ, ∃ hk : k < (v :: rest).length,
        findPeak (v :: rest) = (((v :: rest).get ⟨k, hk⟩ : ℤ), (k : ℤ))
        ∧ (∀ j (hj : j < (v :: rest).length),
            ((v :: rest).get ⟨j, hj⟩ : ℤ) ≤ ((v :: rest).get ⟨k, hk⟩ : ℤ))
        ∧ (∀ j (hj : j < k),
            ((v :: rest).get ⟨j, Nat.lt_trans hj hk⟩ : ℤ) <
              ((v :: rest).get ⟨k, hk⟩ : ℤ)))
    ∧ (∀ i : ℤ, binFreq sr i = (i : ℝ) * sr / 2048)
    ∧ (∀ i j : ℤ, i < j → binFreq sr i < binFreq sr j)
    ∧ (∀ x : ℝ, |(jsRound x : ℝ) - x| ≤ 1 / 2)
    ∧ (∀ (st : AnalyserState) (std : MachineStandard),
        (getMetrics (some st) std).peakFrequency =
          jsRound (binFreq st.sampleRate (findPeak st.freqData).2)) := by
  refine ⟨?_, ?_, ?_, ?_, fun st std => rfl⟩
  · rcases peakLoop_spec (v :: rest) 0 (-1) (-1) with ⟨heq, hle⟩ | ⟨k, hk, heq, hgt, hmax, hfirst⟩
    · have := hle v (List.mem_cons_self v rest)
      omega
    · refine ⟨k, hk, ?_, hmax, hfirst⟩
      unfold findPeak
      rw [heq, zero_add]
  · intro i
    unfold binFreq fftSize
    push_cast
    ring
  · intro i j hij
    unfold binFreq
    have hfac : (0 : ℝ) < sr / (fftSize : ℝ) := by
      apply div_pos hsr
      unfold fftSize
      norm_num
    have hij2 : (i : ℝ) < (j : ℝ) := by exact_mod_cast hij
    exact mul_lt_mul_of_pos_right hij2 hfac
  · intro x
    unfold jsRound
    have h1 := Int.floor_le (x + 1 / 2)
    have h2 := Int.lt_floor_add_one (x + 1 / 2)
    rw [abs_le]
    constructor
    · linarith
    · linarith

/-- C7 witness: the peak-extraction properties instantiated at the block
[1, 3, 3, 0] (maximum 3 first attained at index 1) and a 48 kHz sample rate. -/
theorem C7_peak_extraction_witness :
    (0 : ℝ) < 48000 ∧
    ((∃ k : ℕ, ∃ hk : k < ((1 : ℕ) :: [3, 3, 0]).length,
        findPeak ((1 : ℕ) :: [3, 3, 0]) =
          ((((1 : ℕ) :: [3, 3, 0]).get ⟨k, hk⟩ : ℤ), (k : ℤ))
        ∧ (∀ j (hj : j < ((1 : ℕ) :: [3, 3, 0]).length),
            (((1 : ℕ) :: [3, 3, 0]).get ⟨j, hj⟩ : ℤ) ≤
              (((1 : ℕ) :: [3, 3, 0]).get ⟨k, hk⟩ : ℤ))
        ∧ (∀ j (hj : j < k),
            (((1 : ℕ) :: [3, 3, 0]).get ⟨j, Nat.lt_trans hj hk⟩ : ℤ) <
              (((1 : ℕ) :: [3, 3, 0]).get ⟨k, hk⟩ : ℤ)))
     ∧ (∀ i : ℤ, binFreq 48000 i = (i : ℝ) * 48000 / 2048)
     ∧ (∀ i j : ℤ, i < j → binFreq 48000 i < binFreq 48000 j)
     ∧ (∀ x : ℝ, |(jsRound x : ℝ) - x| ≤ 1 / 2)
     ∧ (∀ (st : AnalyserState) (std : MachineStandard),
        (getMetrics (some st) std).peakFrequency =
          jsRound (binFreq st.sampleRate (findPeak st.freqData).2))) :=
  ⟨by norm_num, C7_peak_extraction 1 [3, 3, 0] 48000 (by norm_num)⟩

/-- C3: a running session (measuring, machine selected) emits exactly one
history record on each of the three termination paths: manual stop, reset to
machine selection, and countdown expiry; a second termination emits nothing
further and leaves history unchanged; a start whose audio acquisition fails
leaves the state entirely unchanged, so it stays non-running and emits no
record. -/
theorem C3_one_record_per_running_session
    (m : MachineStandard) (fin : Bool) (met : AudioMetrics) (cal : ℝ)
    (h : List HistoryEntry) (cd : Option ℕ) (proc : Option ℝ)
    (id1 id2 : String) (t1 t2 : ℕ) :
    ((stopMeasurement id1 t1 ⟨some m, true, fin, met, cal, h, cd, proc⟩).2 = true
     ∧ (stopMeasurement id1 t1 ⟨some m, true, fin, met, cal, h, cd, proc⟩).1.history =
         saveToHistory (mkEntry id1 t1 m met) h
     ∧ (stopMeasurement id1 t1 ⟨some m, true, fin, met, cal, h, cd, proc⟩).1.isMeasuring
         = false)
    ∧ ((resetToMenu id1 t1 ⟨some m, true, fin, met, cal, h, cd, proc⟩).2 = true
     ∧ (resetToMenu id1 t1 ⟨some m, true, fin, met, cal, h, cd, proc⟩).1.history =
         saveToHistory (mkEntry id1 t1 m met) h
     ∧ (resetToMenu id1 t1 ⟨some m, true, fin, met, cal, h, cd, proc⟩).1.selectedMachine
         = none)
    ∧ ((countdownTick id1 t1 ⟨some m, true, fin, met, cal, h, some 0, proc⟩).2 = true
     ∧ (countdownTick id1 t1 ⟨some m, true, fin, met, cal, h, some 0, proc⟩).1.history =
         saveToHistory (mkEntry id1 t1 m met) h)
    ∧ (stopMeasurement id2 t2
        (stopMeasurement id1 t1 ⟨some m, true, fin, met, cal, h, cd, proc⟩).1).2 = false
    ∧ (stopMeasurement id2 t2
        (stopMeasurement id1 t1 ⟨some m, true, fin, met, cal, h, cd, proc⟩).1).1.history =
        (stopMeasurement id1 t1 ⟨some m, true, fin, met, cal, h, cd, proc⟩).1.history
    ∧ (∀ s : AppState, startMeasurement false s = s) := by
  refine ⟨⟨rfl, rfl, rfl⟩, ⟨rfl, rfl, rfl⟩, ⟨rfl, rfl⟩, rfl, rfl, ?_⟩
  intro s
  rcases s with ⟨msel, im, f2, met2, cal2, h2, cd2, proc2⟩
  cases msel
  · rfl
  · simp [startMeasurement]

/-- C5: the history update places the new record at the front and keeps at
most 50 entries; appending to a full collection of 50 keeps exactly 50,
dropping the last-positioned (oldest) entry. -/
theorem C5_history_capped (e : HistoryEntry) (h : List HistoryEntry)
    (g : Fin 50 → HistoryEntry) :
    (saveToHistory e h).head? = some e
    ∧ (saveToHistory e h).length ≤ 50
    ∧ saveToHistory e (List.ofFn g) = e :: (List.ofFn g).dropLast
    ∧ (saveToHistory e (List.ofFn g)).length = 50 := by
  have hlen : (List.ofFn g).length = 50 := List.length_ofFn g
  refine ⟨rfl, ?_, ?_, ?_⟩
  · unfold saveToHistory
    rw [List.length_take]
    omega
  · show e :: (List.ofFn g).take 49 = e :: (List.ofFn g).dropLast
    rw [List.dropLast_eq_take, hlen]
  · unfold saveToHistory
    rw [List.length_take]
    simp [hlen]

/-- C8 counterexample: invoking the termination path in the IDLE state (no
machine, not measuring, finished flag clear) is not a no-op: it sets the
finished flag, so the resulting state differs from the IDLE state. -/
theorem C8_stop_on_idle_cex :
    idleState.selectedMachine = none
    ∧ idleState.isMeasuring = false
    ∧ idleState.hasFinishedTest = false
    ∧ (stopMeasurement "x" 0 idleState).1.hasFinishedTest = true
    ∧ (stopMeasurement "x" 0 idleState).1 ≠ idleState := by
  refine ⟨rfl, rfl, rfl, rfl, ?_⟩
  intro hEq
  have hflag := congrArg AppState.hasFinishedTest hEq
  simp [stopMeasurement, idleState] at hflag

/-- C8 amended: invoking the termination path when already FINISHED (not
measuring, finished flag set, countdown cleared, processor released) is a
complete no-op and emits no record; from any other non-measuring state
(including IDLE) it still emits no record and leaves machine, metrics,
calibration and history unchanged, but sets the finished flag and clears the
countdown and processor handle. -/
theorem C8_stop_idempotent_amended (mach : Option MachineStandard)
    (met : AudioMetrics) (cal : ℝ) (h : List HistoryEntry)
    (id : String) (ts : ℕ) :
    stopMeasurement id ts ⟨mach, false, true, met, cal, h, none, none⟩ =
      (⟨mach, false, true, met, cal, h, none, none⟩, false)
    ∧ (∀ (fin : Bool) (cd : Option ℕ) (proc : Option ℝ),
        stopMeasurement id ts ⟨mach, false, fin, met, cal, h, cd, proc⟩ =
          (⟨mach, false, true, met, cal, h, none, none⟩, false)) :=
  ⟨rfl, fun _fin _cd _proc => rfl⟩

/-- C4 counterexample: a calibration request of 100 - outside [-60, 60] - is
not rejected: starting from a stored calibration of 0 it is accepted and the
stored value becomes 100 instead of being retained at 0. -/
theorem C4_calibration_cex :
    ¬((-60 : ℝ) ≤ 100 ∧ (100 : ℝ) ≤ 60)
    ∧ idleState.calibrationOffset = 0
    ∧ (handleCalibrationChange 100 idleState).calibrationOffset = 100 := by
  refine ⟨by norm_num, rfl, rfl⟩

/-- C4 amended: every calibration setting request is applied unconditionally:
the parsed value replaces the stored calibration (no range check, no
rejection, no clamping), is forwarded to a live processor, and no other state
cell changes. -/
theorem C4_calibration_applied_unconditionally (num : ℝ) (s : AppState) :
    (handleCalibrationChange num s).calibrationOffset = num
    ∧ (handleCalibrationChange num s).audioProcessor =
        s.audioProcessor.map (fun _ => num)
    ∧ (handleCalibrationChange num s).selectedMachine = s.selectedMachine
    ∧ (handleCalibrationChange num s).isMeasuring = s.isMeasuring
    ∧ (handleCalibrationChange num s).hasFinishedTest = s.hasFinishedTest
    ∧ (handleCalibrationChange num s).metrics = s.metrics
    ∧ (handleCalibrationChange num s).history = s.history
    ∧ (handleCalibrationChange num s).countdown = s.countdown :=
  ⟨rfl, rfl, rfl, rfl, rfl, rfl, rfl, rfl⟩

end Openoise
